import Mathlib

/-!
Shallow embedding of the coach-app natural-language-to-structured-data
pipeline (TypeScript sources under `src/lib/ai`, `src/lib/agents`,
`src/lib/data`) together with proofs of the specification claims.

Modelling conventions:
* JavaScript strings are `List Char`; `toLowerCase` is `Char.toLower`
  mapped over the list (all relevant text is ASCII).
* JavaScript `number` is `ℚ` (the programs only perform exact decimal
  arithmetic on the values the claims exercise); `Math.round` is
  `jsRound`, floor of `q + 1/2`, which matches JS rounding of ties
  toward positive infinity.
* nullable values are `Option`; the JS `a ?? b` coalescing operator is
  `jsCoalesce`.
* calendar dates (ISO `YYYY-MM-DD` strings parsed with `parseISO`) are
  `CivilDate` triples; `daysFromCivil` is the standard civil-to-epoch-day
  conversion, `getDay`/`startOfWeekMonday` mirror `Date.getDay` and
  date-fns `startOfWeek` with `weekStartsOn: 1`.
-/

/-- JS `a ?? b`. -/
def jsCoalesce {α : Type} (a b : Option α) : Option α :=
  match a with
  | some v => some v
  | none => b

/-- JS `Math.round` on an exact rational: floor of `q + 1/2`
(ties go up, as in JS). Computed on the numerator/denominator so that
`decide` can evaluate it. -/
def jsRound (q : ℚ) : ℤ :=
  (2 * q.num + (q.den : ℤ)).fdiv (2 * (q.den : ℤ))

/-- JS `Number(x.toFixed(2))`: round to two decimal places. -/
def toFixed2 (q : ℚ) : ℚ :=
  (jsRound (q * 100) : ℚ) / 100

/-- Lower-case a JS string (`toLowerCase`). -/
def lowerList (s : List Char) : List Char :=
  s.map Char.toLower

/-- Shorthand turning a Lean string literal into the `List Char` model. -/
def cl (s : String) : List Char :=
  s.toList

/-- `source` provenance tag of a `NutritionEstimate`
(`'usda' | 'brand' | 'heuristic' | 'user' | 'llm'`). -/
inductive NutritionSource where
  | usda
  | brand
  | heuristic
  | user
  | llm
deriving DecidableEq, Repr

/-- `NutritionEstimate` from `src/lib/types.ts`: every numeric field is
independently nullable. -/
structure NutritionEstimate where
  caloriesKcal : Option ℚ
  proteinG : Option ℚ
  carbsG : Option ℚ
  fatG : Option ℚ
  fiberG : Option ℚ
  source : Option NutritionSource
  confidence : Option ℚ
deriving DecidableEq, Repr

/-- `mergeNutritionEstimates` from `src/lib/ai/macro-estimator.ts`
(lines 108-122): if there is no existing estimate the incoming one is
returned; otherwise every field is `incoming ?? existing`
(`fiberG`/`confidence` add a final `?? null`, which is the identity on
`Option`). The private copy in `src/lib/agents/calorie-lookup-agent.ts`
is character-for-character the same function. -/
def mergeNutritionEstimates (existing : Option NutritionEstimate)
    (incoming : NutritionEstimate) : NutritionEstimate :=
  match existing with
  | none => incoming
  | some e =>
    { caloriesKcal := jsCoalesce incoming.caloriesKcal e.caloriesKcal
      proteinG := jsCoalesce incoming.proteinG e.proteinG
      carbsG := jsCoalesce incoming.carbsG e.carbsG
      fatG := jsCoalesce incoming.fatG e.fatG
      fiberG := jsCoalesce incoming.fiberG (jsCoalesce e.fiberG none)
      source := jsCoalesce incoming.source e.source
      confidence := jsCoalesce incoming.confidence (jsCoalesce e.confidence none) }

/-- The merge example from the spec: existing `{calories:null, protein:20}`. -/
def mergeExampleExisting : NutritionEstimate :=
  { caloriesKcal := none, proteinG := some 20, carbsG := none, fatG := none
    fiberG := none, source := none, confidence := none }

/-- The merge example from the spec: incoming `{calories:300, protein:null}`. -/
def mergeExampleIncoming : NutritionEstimate :=
  { caloriesKcal := some 300, proteinG := none, carbsG := none, fatG := none
    fiberG := none, source := none, confidence := none }

theorem jsCoalesce_eq_ite {α : Type} [DecidableEq α] (a b : Option α) :
    jsCoalesce a b = if a = none then b else a := by
  cases a <;> simp [jsCoalesce]

/-- C1: merging an incoming `NutritionEstimate` into an existing one takes
every field (`caloriesKcal`, `proteinG`, `carbsG`, `fatG`, `fiberG`,
`source`, `confidence`) independently: the incoming value wins when
non-null, otherwise the existing value is kept (so a field is null only
when it is null on both sides); in particular merging
`{calories:300, protein:null}` into `{calories:null, protein:20}` yields
`{calories:300, protein:20}`. -/
theorem C1_merge_field_independence :
    (∀ e i : NutritionEstimate,
      (mergeNutritionEstimates (some e) i).caloriesKcal =
        (if i.caloriesKcal = none then e.caloriesKcal else i.caloriesKcal) ∧
      (mergeNutritionEstimates (some e) i).proteinG =
        (if i.proteinG = none then e.proteinG else i.proteinG) ∧
      (mergeNutritionEstimates (some e) i).carbsG =
        (if i.carbsG = none then e.carbsG else i.carbsG) ∧
      (mergeNutritionEstimates (some e) i).fatG =
        (if i.fatG = none then e.fatG else i.fatG) ∧
      (mergeNutritionEstimates (some e) i).fiberG =
        (if i.fiberG = none then e.fiberG else i.fiberG) ∧
      (mergeNutritionEstimates (some e) i).source =
        (if i.source = none then e.source else i.source) ∧
      (mergeNutritionEstimates (some e) i).confidence =
        (if i.confidence = none then e.confidence else i.confidence)) ∧
    mergeNutritionEstimates (some mergeExampleExisting) mergeExampleIncoming =
      { caloriesKcal := some 300, proteinG := some 20, carbsG := none
        fatG := none, fiberG := none, source := none, confidence := none } := by
  constructor
  · intro e i
    refine ⟨?_, ?_, ?_, ?_, ?_, ?_, ?_⟩ <;>
      simp only [mergeNutritionEstimates, jsCoalesce_eq_ite] <;>
      split_ifs <;> simp_all
  · rfl

/-- Canonical unit vocabulary `MealQuantityUnit` from `src/lib/types.ts`. -/
inductive MealQuantityUnit where
  | count
  | slice
  | cup
  | oz_fl
  | oz
  | g
  | ml
  | tbsp
  | tsp
  | serving
  | packet
  | bottle
  | pint
  | can
  | other
deriving DecidableEq, Repr

/-- The TypeScript string literal for each canonical unit value. -/
def unitToken : MealQuantityUnit → List Char
  | .count => cl "count"
  | .slice => cl "slice"
  | .cup => cl "cup"
  | .oz_fl => cl "oz_fl"
  | .oz => cl "oz"
  | .g => cl "g"
  | .ml => cl "ml"
  | .tbsp => cl "tbsp"
  | .tsp => cl "tsp"
  | .serving => cl "serving"
  | .packet => cl "packet"
  | .bottle => cl "bottle"
  | .pint => cl "pint"
  | .can => cl "can"
  | .other => cl "other"

/-- Rendering of a nullable unit back to a string (null renders as the
empty string, which `normalizeUnit` maps back to null). -/
def renderUnit (u : Option MealQuantityUnit) : List Char :=
  match u with
  | none => []
  | some x => unitToken x

/-- The `switch` body of `normalizeUnit` (`src/lib/ai/parsers.ts` lines
569-608), applied to the lower-cased, dot-stripped token. -/
def normalizeUnitCore (u : List Char) : MealQuantityUnit :=
  if u = cl "cup" ∨ u = cl "cups" ∨ u = cl "c" then .cup
  else if u = cl "tablespoon" ∨ u = cl "tablespoons" ∨ u = cl "tbsp" ∨ u = cl "tbsps" then .tbsp
  else if u = cl "teaspoon" ∨ u = cl "teaspoons" ∨ u = cl "tsp" ∨ u = cl "tsps" then .tsp
  else if u = cl "ounce" ∨ u = cl "ounces" ∨ u = cl "oz" then .oz
  else if u = cl "oz_fl" then .oz_fl
  else if u = cl "gram" ∨ u = cl "grams" ∨ u = cl "g" then .g
  else if u = cl "serving" ∨ u = cl "servings" then .serving
  else if u = cl "packet" ∨ u = cl "packets" then .packet
  else if u = cl "piece" ∨ u = cl "pieces" then .count
  else if u = cl "slice" ∨ u = cl "slices" then .slice
  else .other

/-- `normalizeUnit` from `src/lib/ai/parsers.ts` (lines 566-609): empty or
absent input is null; otherwise lower-case the token, strip dots, and run
the `switch`, defaulting to `other`. -/
def normalizeUnit (raw : List Char) : Option MealQuantityUnit :=
  if raw = [] then none
  else some (normalizeUnitCore ((lowerList raw).filter (fun c => c ≠ '.')))

/-- `MealItemQuantity` from `src/lib/types.ts`. -/
structure MealItemQuantity where
  value : Option ℚ
  unit : Option MealQuantityUnit
  display : Option (List Char)
deriving DecidableEq, Repr

/-- `MealSizeHint`. -/
inductive MealSizeHint where
  | small
  | medium
  | large
deriving DecidableEq, Repr

/-- `AlcoholInfo` from `src/lib/types.ts`. -/
structure AlcoholInfo where
  isAlcohol : Bool
  abvPct : Option ℚ
  volumeMl : Option ℚ
deriving DecidableEq, Repr

/-- `MealItemLookupStatus`. -/
inductive MealItemLookupStatus where
  | pending
  | matched
  | ambiguous
deriving DecidableEq, Repr

/-- `MealItemLookupCandidate`. -/
structure MealItemLookupCandidate where
  provider : List Char
  id : List Char
  name : List Char
deriving DecidableEq, Repr

/-- `MealItemLookup`. -/
structure MealItemLookup where
  status : MealItemLookupStatus
  candidates : List MealItemLookupCandidate
deriving DecidableEq, Repr

/-- `MealItemFlags`. -/
structure MealItemFlags where
  needsLookup : Bool
  needsPortion : Bool
deriving DecidableEq, Repr

/-- `ParseConfidence` (`'low' | 'medium' | 'high'`). -/
inductive ParseConfidence where
  | low
  | medium
  | high
deriving DecidableEq, Repr

/-- `StructuredMealItem` from `src/lib/types.ts`. -/
structure StructuredMealItem where
  rawText : List Char
  name : List Char
  brand : Option (List Char)
  preparation : List (List Char)
  quantity : MealItemQuantity
  sizeHint : Option MealSizeHint
  alcohol : Option AlcoholInfo
  nutritionEstimate : Option NutritionEstimate
  lookup : MealItemLookup
  flags : MealItemFlags
  confidence : ParseConfidence
deriving DecidableEq, Repr

/-- `addNullableNumbers` from `src/lib/ai/parsers.ts` (lines 395-400):
treat null as 0, add, return null when the sum is exactly 0, otherwise
round the sum to two decimals. -/
def addNullableNumbers (a b : Option ℚ) : Option ℚ :=
  let total := a.getD 0 + b.getD 0
  if total = 0 then none else some (toFixed2 total)

/-- `averageConfidence` from `src/lib/ai/parsers.ts` (lines 402-407). -/
def averageConfidence (a b : Option ℚ) : Option ℚ :=
  let values := ([a, b].filterMap id)
  if values = [] then none
  else some (toFixed2 (values.sum / values.length))

/-- JS `x === 0` where `x : number | null`. -/
def isNumZero (a : Option ℚ) : Bool :=
  match a with
  | some v => v = 0
  | none => false

/-- One step of the `reduce` inside `computeTotals`: an item without a
nutrition estimate leaves the accumulator unchanged. -/
def computeTotalsStep (acc : NutritionEstimate) (item : StructuredMealItem) :
    NutritionEstimate :=
  match item.nutritionEstimate with
  | none => acc
  | some nutrition =>
    { caloriesKcal := addNullableNumbers acc.caloriesKcal nutrition.caloriesKcal
      proteinG := addNullableNumbers acc.proteinG nutrition.proteinG
      carbsG := addNullableNumbers acc.carbsG nutrition.carbsG
      fatG := addNullableNumbers acc.fatG nutrition.fatG
      fiberG := addNullableNumbers (jsCoalesce acc.fiberG none) (jsCoalesce nutrition.fiberG none)
      source := jsCoalesce acc.source (jsCoalesce nutrition.source (some .heuristic))
      confidence := averageConfidence acc.confidence nutrition.confidence }

/-- The initial accumulator of `computeTotals` (all numeric fields 0,
source `heuristic`, confidence 0.5). -/
def computeTotalsInit : NutritionEstimate :=
  { caloriesKcal := some 0, proteinG := some 0, carbsG := some 0
    fatG := some 0, fiberG := some 0, source := some .heuristic
    confidence := some (1 / 2) }

/-- `computeTotals` from `src/lib/ai/parsers.ts` (lines 349-387): fold the
items, then return null when calories, protein, carbs and fat are all
still the number 0. -/
def computeTotals (items : List StructuredMealItem) : Option NutritionEstimate :=
  let totals := items.foldl computeTotalsStep computeTotalsInit
  if isNumZero totals.caloriesKcal ∧ isNumZero totals.proteinG ∧
      isNumZero totals.carbsG ∧ isNumZero totals.fatG then
    none
  else
    some totals

theorem computeTotals_foldl_const (items : List StructuredMealItem)
    (acc : NutritionEstimate)
    (h : ∀ it ∈ items, it.nutritionEstimate = none) :
    items.foldl computeTotalsStep acc = acc := by
  induction items generalizing acc with
  | nil => rfl
  | cons hd tl ih =>
    have hhd : hd.nutritionEstimate = none := h hd (by simp)
    have hstep : computeTotalsStep acc hd = acc := by
      simp [computeTotalsStep, hhd]
    simp only [List.foldl_cons, hstep]
    exact ih acc (fun it hit => h it (by simp [hit]))

/-- C5: when every item of a parse result has `nutritionEstimate = null`,
the derived `totals` computed by `computeTotals` is null — not a
zero-valued `NutritionEstimate` — distinguishing "unknown" from "known to
be zero". -/
theorem C5_all_null_items_null_totals (items : List StructuredMealItem)
    (h : ∀ it ∈ items, it.nutritionEstimate = none) :
    computeTotals items = none := by
  unfold computeTotals
  rw [computeTotals_foldl_const items computeTotalsInit h]
  simp [computeTotalsInit, isNumZero]

/-- An item carrying no nutrition estimate (used by witnesses). -/
def plainItem : StructuredMealItem :=
  { rawText := cl "water", name := cl "water", brand := none, preparation := []
    quantity := { value := none, unit := none, display := none }
    sizeHint := none, alcohol := none, nutritionEstimate := none
    lookup := { status := .pending, candidates := [] }
    flags := { needsLookup := false, needsPortion := false }
    confidence := .medium }

/-- Witness for C5 at a concrete two-item list with null estimates. -/
theorem C5_all_null_items_null_totals_witness :
    computeTotals [plainItem, plainItem] = none :=
  C5_all_null_items_null_totals [plainItem, plainItem] (by decide)

set_option maxHeartbeats 1000000 in
theorem normalizeUnit_range (raw : List Char) :
    normalizeUnit raw ∈ ([none, some .cup, some .tbsp, some .tsp, some .oz,
      some .oz_fl, some .g, some .serving, some .packet, some .count,
      some .slice, some .other] : List (Option MealQuantityUnit)) := by
  unfold normalizeUnit
  by_cases hraw : raw = []
  · simp [hraw]
  · rw [if_neg hraw]
    generalize (lowerList raw).filter (fun c => c ≠ '.') = u
    unfold normalizeUnitCore
    split_ifs <;> decide

/-- C6 (amended): `normalizeUnit` is idempotent on every input whose
normal form is not `count`: re-normalizing its output returns the same
value. The single exception is the canonical value `count` (produced from
the tokens `piece`/`pieces`), which the switch does not accept and which
therefore re-normalizes to `other`. -/
theorem C6_normalizeUnit_idempotent_except_count (raw : List Char) :
    normalizeUnit raw = some MealQuantityUnit.count ∨
      normalizeUnit (renderUnit (normalizeUnit raw)) = normalizeUnit raw := by
  have h := normalizeUnit_range raw
  simp only [List.mem_cons, List.not_mem_nil, or_false] at h
  rcases h with h | h | h | h | h | h | h | h | h | h | h | h <;>
    rw [h] <;> first
      | exact Or.inl rfl
      | exact Or.inr (by decide)

/-- C6 counterexample: the claim `normalizeUnit (normalizeUnit x) = normalizeUnit x`
fails at the concrete token `"piece"`: `normalizeUnit "piece" = count`,
but re-normalizing the canonical value `count` yields `other`. -/
theorem C6_counterexample :
    normalizeUnit (renderUnit (normalizeUnit (cl "piece"))) ≠
      normalizeUnit (cl "piece") := by
  decide

/-- JS `String.prototype.includes`: `needle` occurs as a contiguous
substring. -/
def containsSub (needle : List Char) : List Char → Bool
  | [] => needle.isPrefixOf []
  | s@(_ :: t) => needle.isPrefixOf s || containsSub needle t

/-- `FoodUnit` from `src/lib/ai/parsers.ts` (line 470). -/
inductive FoodUnit where
  | serving
  | cup
  | tbsp
  | tsp
  | oz
  | oz_fl
  | gram
  | piece
  | slice
deriving DecidableEq, Repr

/-- The TypeScript string literal for each `FoodUnit`. -/
def foodUnitToken : FoodUnit → List Char
  | .serving => cl "serving"
  | .cup => cl "cup"
  | .tbsp => cl "tbsp"
  | .tsp => cl "tsp"
  | .oz => cl "oz"
  | .oz_fl => cl "oz_fl"
  | .gram => cl "gram"
  | .piece => cl "piece"
  | .slice => cl "slice"

/-- Macro quadruple used by the heuristic estimator. -/
structure Macros where
  calories : ℚ
  protein : ℚ
  carbs : ℚ
  fat : ℚ
deriving DecidableEq, Repr

/-- `FoodMacroEstimate` from `src/lib/ai/parsers.ts`. -/
structure FoodMacroEstimate where
  keywords : List (List Char)
  unit : FoodUnit
  amount : ℚ
  macros : Macros
deriving DecidableEq, Repr

/-- `DEFAULT_UNKNOWN_MACROS`. -/
def DEFAULT_UNKNOWN_MACROS : Macros :=
  { calories := 200, protein := 7, carbs := 26, fat := 8 }

def blueberriesEntry : FoodMacroEstimate :=
  { keywords := [cl "blueberries", cl "blueberry"], unit := .cup, amount := 1
    macros := { calories := 85, protein := 1, carbs := 21, fat := 0.5 } }

def strawberriesEntry : FoodMacroEstimate :=
  { keywords := [cl "strawberries", cl "strawberry"], unit := .cup, amount := 1
    macros := { calories := 50, protein := 1, carbs := 12, fat := 0.5 } }

def bananaEntry : FoodMacroEstimate :=
  { keywords := [cl "banana"], unit := .piece, amount := 1
    macros := { calories := 105, protein := 1.3, carbs := 27, fat := 0.4 } }

def appleEntry : FoodMacroEstimate :=
  { keywords := [cl "apple"], unit := .piece, amount := 1
    macros := { calories := 95, protein := 0.5, carbs := 25, fat := 0.3 } }

def pretzelEntry : FoodMacroEstimate :=
  { keywords := [cl "pretzel"], unit := .serving, amount := 1
    macros := { calories := 300, protein := 7, carbs := 60, fat := 3 } }

def lagerEntry : FoodMacroEstimate :=
  { keywords := [cl "lager", cl "beer"], unit := .oz_fl, amount := 12
    macros := { calories := 150, protein := 2, carbs := 13, fat := 0 } }

/-- `FOOD_MACRO_DATABASE` from `src/lib/ai/parsers.ts` (lines 486-493),
in source order (first keyword match wins). -/
def FOOD_MACRO_DATABASE : List FoodMacroEstimate :=
  [blueberriesEntry, strawberriesEntry, bananaEntry, appleEntry,
   pretzelEntry, lagerEntry]

/-- `unitsMatch` from `src/lib/ai/parsers.ts` (lines 611-618). The final
fallthrough compares the TypeScript string values (so `g` vs `gram` do
NOT match). -/
def unitsMatch (first : Option MealQuantityUnit) (second : FoodUnit) : Bool :=
  match first with
  | none => false
  | some f =>
    if f = MealQuantityUnit.count ∧ second = FoodUnit.piece then true
    else if f = MealQuantityUnit.packet ∧ second = FoodUnit.serving then true
    else if f = MealQuantityUnit.oz ∧ (second = FoodUnit.oz ∨ second = FoodUnit.oz_fl) then true
    else if f = MealQuantityUnit.oz_fl ∧ second = FoodUnit.oz_fl then true
    else unitToken f = foodUnitToken second

/-- `computeMultiplier` from `src/lib/ai/parsers.ts` (lines 512-526):
a falsy (null or zero) quantity value gives multiplier 1; with no matched
entry the raw value is the multiplier; with a matched entry the value is
divided by the entry's base amount when the quantity has no unit, when
the entry unit is `serving`, or when the units match — otherwise the raw
value is used. -/
def computeMultiplier (quantity : MealItemQuantity)
    (estimate : Option FoodMacroEstimate) : ℚ :=
  let baseAmount := match estimate with | some e => e.amount | none => 1
  match quantity.value with
  | none => 1
  | some v =>
    if v = 0 then 1
    else
      match estimate with
      | none => v
      | some e =>
        match quantity.unit with
        | none => v / baseAmount
        | some u =>
          if e.unit = FoodUnit.serving then v / baseAmount
          else if unitsMatch (some u) e.unit then v / baseAmount
          else v

/-- `estimateItemMacros` from `src/lib/ai/parsers.ts` (lines 495-510):
first matching database entry (table order), multiplier from
`computeMultiplier`, all fields rounded to two decimals. -/
def estimateItemMacros (part : List Char) (quantity : MealItemQuantity) : Macros :=
  let normalized := lowerList part
  let estimate := FOOD_MACRO_DATABASE.find?
    (fun entry => entry.keywords.any (fun kw => containsSub kw normalized))
  let baseMacros := match estimate with | some e => e.macros | none => DEFAULT_UNKNOWN_MACROS
  let multiplier := computeMultiplier quantity estimate
  { calories := toFixed2 (baseMacros.calories * multiplier)
    protein := toFixed2 (baseMacros.protein * multiplier)
    carbs := toFixed2 (baseMacros.carbs * multiplier)
    fat := toFixed2 (baseMacros.fat * multiplier) }

/-- C4 (amended): in `computeMultiplier` with a matched food-table entry:
an unknown (null) quantity value gives multiplier 1, and so does an
explicit value of 0 (the JS falsy check `!quantity.value` treats 0 like
null); for a non-null, non-zero value `v`, the multiplier is
`v / baseAmount` when the quantity has no unit, when the entry's base
unit is `serving`, or when the units are compatible — only a present and
incompatible unit (against a non-`serving` entry base unit) makes the
raw value itself the multiplier. (The claim's "absent unit ⟹ raw value"
is the part that fails.) -/
theorem C4_computeMultiplier_amended (q : MealItemQuantity)
    (e : FoodMacroEstimate) :
    (q.value = none → computeMultiplier q (some e) = 1) ∧
    (q.value = some 0 → computeMultiplier q (some e) = 1) ∧
    (∀ v : ℚ, q.value = some v → v ≠ 0 →
      computeMultiplier q (some e) =
        if q.unit = none ∨ e.unit = FoodUnit.serving ∨ unitsMatch q.unit e.unit
        then v / e.amount
        else v) := by
  refine ⟨?_, ?_, ?_⟩
  · intro hv
    simp [computeMultiplier, hv]
  · intro hv
    simp [computeMultiplier, hv]
  · intro v hv hnz
    unfold computeMultiplier
    rw [hv]
    simp only [if_neg hnz]
    cases hq : q.unit with
    | none => simp
    | some u =>
      by_cases hs : e.unit = FoodUnit.serving
      · simp [hs]
      · by_cases hm : unitsMatch (some u) e.unit
        · simp [hs, hm]
        · simp [hs, hm]

/-- Witness for C4 at concrete inputs: 2 fluid ounces of lager against
the 12-oz lager entry gives multiplier 2/12 = 1/6, and an unknown (null)
quantity value gives multiplier 1. -/
theorem C4_computeMultiplier_amended_witness :
    computeMultiplier
      { value := some 2, unit := some MealQuantityUnit.oz_fl, display := none }
      (some lagerEntry) = 1 / 6 ∧
    computeMultiplier
      { value := none, unit := some MealQuantityUnit.cup, display := none }
      (some lagerEntry) = 1 := by
  constructor
  · rw [(C4_computeMultiplier_amended
      { value := some 2, unit := some MealQuantityUnit.oz_fl, display := none }
      lagerEntry).2.2 2 rfl (by with_unfolding_all decide)]
    with_unfolding_all rfl
  · exact (C4_computeMultiplier_amended
      { value := none, unit := some MealQuantityUnit.cup, display := none }
      lagerEntry).1 rfl

/-- C4 counterexample: the claim says that when the supplied quantity has
no unit the raw value is the multiplier; but for `{value: 24, unit: null}`
against the lager entry (base amount 12) the code computes 24 / 12 = 2,
not 24. -/
theorem C4_counterexample :
    computeMultiplier { value := some 24, unit := none, display := none }
        (some lagerEntry) = 2 ∧ (2 : ℚ) ≠ 24 := by
  constructor
  · with_unfolding_all rfl
  · with_unfolding_all decide

/-- One entry of the zod-validated enrichment response
(`responseSchema` in `src/lib/ai/macro-estimator.ts`, identical to
`enrichmentResponseSchema` in `src/lib/agents/calorie-lookup-agent.ts`):
a non-negative item index plus a partial nutrition estimate. -/
structure EnrichmentResponseItem where
  index : ℕ
  caloriesKcal : Option ℚ
  proteinG : Option ℚ
  carbsG : Option ℚ
  fatG : Option ℚ
  fiberG : Option ℚ
  confidence : Option ℚ
  source : Option NutritionSource
deriving DecidableEq, Repr

/-- `coerce` from `src/lib/ai/macro-estimator.ts` (lines 124-128):
null/undefined stay null, numbers are rounded to two decimals. -/
def coerce (value : Option ℚ) : Option ℚ :=
  value.map toFixed2

/-- The incoming estimate built from one response item
(`src/lib/ai/macro-estimator.ts` lines 90-98): `source` defaults to
`llm` when absent. -/
def mkIncomingEstimate (r : EnrichmentResponseItem) : NutritionEstimate :=
  { caloriesKcal := coerce r.caloriesKcal
    proteinG := coerce r.proteinG
    carbsG := coerce r.carbsG
    fatG := coerce r.fatG
    fiberG := coerce r.fiberG
    source := some (r.source.getD .llm)
    confidence := coerce r.confidence }

/-- One iteration of the merge loop (`for (const item of parsed.items)`):
out-of-range indices are skipped, otherwise the target item's estimate is
replaced by the merge of its current estimate with the incoming one. -/
def applyEnrichmentItem (acc : List StructuredMealItem)
    (r : EnrichmentResponseItem) : List StructuredMealItem :=
  match acc.get? r.index with
  | none => acc
  | some target =>
    acc.set r.index
      { target with
        nutritionEstimate :=
          some (mergeNutritionEstimates target.nutritionEstimate (mkIncomingEstimate r)) }

/-- `enrichNutritionEstimates` from `src/lib/ai/macro-estimator.ts`
(lines 27-106). The OpenAI call is abstracted as `remote`; `.error`
covers transport failure, missing content and schema violation (the
`catch` branch returns the items unchanged). With no API key the items
are returned unchanged; if no item lacks an estimate the call is
skipped. -/
def enrichNutritionEstimates (apiKey : Option (List Char))
    (remote : Except Unit (List EnrichmentResponseItem))
    (items : List StructuredMealItem) : List StructuredMealItem :=
  match apiKey with
  | none => items
  | some _ =>
    if ¬ items.any (fun it => it.nutritionEstimate.isNone) then items
    else
      match remote with
      | .error _ => items
      | .ok resp => resp.foldl applyEnrichmentItem items

/-- `CalorieLookupAgentOutput` from
`src/lib/agents/calorie-lookup-agent.ts`. -/
structure CalorieLookupAgentOutput where
  enrichedItems : List StructuredMealItem
  confidence : ParseConfidence
  source : NutritionSource
deriving DecidableEq, Repr

/-- `addHeuristicNutrition` from `src/lib/agents/calorie-lookup-agent.ts`
(lines 235-255), as it actually executes when passed UNBOUND to
`Array.prototype.map` (`input.items.map(this.addHeuristicNutrition)`,
lines 91 and 118): class bodies are strict-mode, so inside the callback
`this` is undefined. An item that already carries an estimate returns on
the first line without touching `this` and passes through unchanged; an
item lacking an estimate reaches `this.estimateItemMacros(...)`
(line 241) and throws a `TypeError`, modeled as `.error ()`. -/
def addHeuristicNutrition (item : StructuredMealItem) :
    Except Unit StructuredMealItem :=
  if item.nutritionEstimate.isSome then .ok item else .error ()

/-- JS `Array.prototype.map` with a callback that can throw: elements are
visited left to right and the first exception aborts the whole map. -/
def mapAttempt {α β : Type} (f : α → Except Unit β) :
    List α → Except Unit (List β)
  | [] => .ok []
  | a :: l =>
    match f a with
    | .error e => .error e
    | .ok b =>
      match mapAttempt f l with
      | .error e => .error e
      | .ok bs => .ok (b :: bs)

/-- `CalorieLookupAgent.enrichNutrition` from
`src/lib/agents/calorie-lookup-agent.ts` (lines 84-123): with no API key,
`input.items.map(this.addHeuristicNutrition)` with confidence low and
source heuristic (which, `this` being lost, throws as soon as any item
lacks an estimate); with a key, short-circuit with high/usda when nothing
needs enrichment, otherwise the remote call, with the same throwing map
in the catch branch. A thrown `TypeError` is the `.error` result. -/
def agentEnrichNutrition (apiKey : Option (List Char))
    (remote : Except Unit (List EnrichmentResponseItem))
    (items : List StructuredMealItem) :
    Except Unit CalorieLookupAgentOutput :=
  match apiKey with
  | none =>
    match mapAttempt addHeuristicNutrition items with
    | .error e => .error e
    | .ok enriched =>
      .ok { enrichedItems := enriched, confidence := .low, source := .heuristic }
  | some _ =>
    if ¬ items.any (fun it => it.nutritionEstimate.isNone) then
      .ok { enrichedItems := items, confidence := .high, source := .usda }
    else
      match remote with
      | .ok resp =>
        .ok { enrichedItems := resp.foldl applyEnrichmentItem items
              confidence := .high, source := .usda }
      | .error _ =>
        match mapAttempt addHeuristicNutrition items with
        | .error e => .error e
        | .ok enriched =>
          .ok { enrichedItems := enriched, confidence := .low, source := .heuristic }

theorem mapAttempt_ok_of_all (items : List StructuredMealItem)
    (h : ∀ it ∈ items, it.nutritionEstimate.isSome) :
    mapAttempt addHeuristicNutrition items = .ok items := by
  induction items with
  | nil => rfl
  | cons hd tl ih =>
    have hhd : addHeuristicNutrition hd = .ok hd := by
      simp [addHeuristicNutrition, h hd (by simp)]
    have htl := ih (fun it hit => h it (by simp [hit]))
    simp [mapAttempt, hhd, htl]

theorem mapAttempt_error_of_mem (items : List StructuredMealItem)
    (h : ∃ it ∈ items, it.nutritionEstimate = none) :
    mapAttempt addHeuristicNutrition items = .error () := by
  induction items with
  | nil =>
    obtain ⟨it, hit, -⟩ := h
    simp at hit
  | cons hd tl ih =>
    obtain ⟨it, hit, hnone⟩ := h
    rcases List.mem_cons.mp hit with rfl | hmem
    · have h1 : addHeuristicNutrition it = .error () := by
        simp [addHeuristicNutrition, hnone]
      simp [mapAttempt, h1]
    · by_cases hhd : hd.nutritionEstimate.isSome
      · have h1 : addHeuristicNutrition hd = .ok hd := by
          simp [addHeuristicNutrition, hhd]
        have h2 := ih ⟨it, hmem, hnone⟩
        simp [mapAttempt, h1, h2]
      · have h1 : addHeuristicNutrition hd = .error () := by
          simp [addHeuristicNutrition, hhd]
        simp [mapAttempt, h1]

/-- C3 (amended): with no API key configured, `enrichNutritionEstimates`
(the function the claim cites, `src/lib/ai/macro-estimator.ts`) returns
the item list UNCHANGED — it does not augment items lacking an estimate.
The `CalorieLookupAgent.enrichNutrition` no-key path attempts heuristic
augmentation via `input.items.map(this.addHeuristicNutrition)`, but the
method is passed unbound, so `this.estimateItemMacros` throws: the call
returns the items unchanged (confidence low, source heuristic) when every
item already carries an estimate, and throws a `TypeError` as soon as any
item lacks one — no item is ever actually augmented with a heuristic
estimate on this path either. -/
theorem C3_enrichment_no_key_amended
    (remote : Except Unit (List EnrichmentResponseItem))
    (items : List StructuredMealItem) :
    enrichNutritionEstimates none remote items = items ∧
    ((∀ it ∈ items, it.nutritionEstimate.isSome) →
      agentEnrichNutrition none remote items =
        .ok { enrichedItems := items, confidence := .low
              source := .heuristic }) ∧
    ((∃ it ∈ items, it.nutritionEstimate = none) →
      agentEnrichNutrition none remote items = .error ()) := by
  refine ⟨rfl, ?_, ?_⟩
  · intro h
    simp only [agentEnrichNutrition]
    rw [mapAttempt_ok_of_all items h]
  · intro h
    simp only [agentEnrichNutrition]
    rw [mapAttempt_error_of_mem items h]

/-- A one-item batch already carrying an estimate (for the C3 witness). -/
def enrichedItem : StructuredMealItem :=
  { rawText := cl "banana", name := cl "banana", brand := none
    preparation := []
    quantity := { value := none, unit := none, display := none }
    sizeHint := none, alcohol := none
    nutritionEstimate := some
      { caloriesKcal := some 105, proteinG := some 1, carbsG := some 27
        fatG := some 1, fiberG := none, source := some .heuristic
        confidence := some (2 / 5) }
    lookup := { status := .pending, candidates := [] }
    flags := { needsLookup := false, needsPortion := true }
    confidence := .medium }

/-- Witness for C3 (amended) at concrete one-item batches: the cited
function passes the unenriched item through unchanged; the agent returns
an already-enriched batch unchanged with low/heuristic, and throws on a
batch containing an item lacking an estimate. -/
theorem C3_enrichment_no_key_amended_witness :
    enrichNutritionEstimates none (Except.error ()) [plainItem] = [plainItem] ∧
    agentEnrichNutrition none (Except.error ()) [enrichedItem] =
      .ok { enrichedItems := [enrichedItem], confidence := .low
            source := .heuristic } ∧
    agentEnrichNutrition none (Except.error ()) [plainItem] = .error () :=
  ⟨(C3_enrichment_no_key_amended (Except.error ()) [plainItem]).1,
   (C3_enrichment_no_key_amended (Except.error ()) [enrichedItem]).2.1
     (by decide),
   (C3_enrichment_no_key_amended (Except.error ()) [plainItem]).2.2
     ⟨plainItem, by simp, rfl⟩⟩

/-- C3 counterexample: with no API key, an item lacking a nutrition
estimate comes out of `enrichNutritionEstimates` still lacking one — it
is NOT augmented with a heuristic estimate (`source = heuristic`,
low confidence) as the claim states. -/
theorem C3_counterexample :
    plainItem.nutritionEstimate = none ∧
    enrichNutritionEstimates none (Except.error ()) [plainItem] = [plainItem] := by
  exact ⟨rfl, rfl⟩

/-- JS `\s` (whitespace) character class. -/
def isWsChar (c : Char) : Bool :=
  c.isWhitespace

/-- JS `\w` (word) character class: ASCII letters, digits, underscore. -/
def isWordChar (c : Char) : Bool :=
  c.isAlpha || c.isDigit || c = '_'

/-- JS `String.prototype.trim`. -/
def trimList (s : List Char) : List Char :=
  ((s.dropWhile isWsChar).reverse.dropWhile isWsChar).reverse

/-- Case-insensitive literal prefix: drop `w` (a lower-case literal) from
the front of `s`, comparing case-insensitively, returning the remainder. -/
def ciDropPrefix (w s : List Char) : Option (List Char) :=
  if lowerList (s.take w.length) = w then some (s.drop w.length) else none

/-- Regex `\s+` at the head: requires at least one whitespace character
and consumes the whole run. -/
def dropWsRequired (s : List Char) : Option (List Char) :=
  match s with
  | c :: t => if isWsChar c then some (t.dropWhile isWsChar) else none
  | [] => none

/-- Step 1 of `segmentMealText`: `replace(/^[^:]+:\s*/, '')` — drop a
leading colon-separated label. -/
def stripColonLabel (s : List Char) : List Char :=
  let pre := s.takeWhile (fun c => c ≠ ':')
  if pre = [] then s
  else if pre.length = s.length then s
  else (s.drop (pre.length + 1)).dropWhile isWsChar

/-- The meal-word alternation `breakfast|lunch|dinner|snack` (first
alternative wins; their first letters are distinct). -/
def mealWordRest (t : List Char) : Option (List Char) :=
  ciDropPrefix (cl "breakfast") t <|> ciDropPrefix (cl "lunch") t <|>
    ciDropPrefix (cl "dinner") t <|> ciDropPrefix (cl "snack") t

/-- After the meal word: `\s*(?:was|is|=|,)?\s*`. -/
def mealSuffixRest (r : List Char) : List Char :=
  let r1 := r.dropWhile isWsChar
  let r2 :=
    match ciDropPrefix (cl "was") r1 with
    | some x => x
    | none =>
      match ciDropPrefix (cl "is") r1 with
      | some x => x
      | none =>
        match r1 with
        | '=' :: x => x
        | ',' :: x => x
        | _ => r1
  r2.dropWhile isWsChar

/-- Body of step 2 starting at the meal word. -/
def mealRest (t : List Char) : Option (List Char) :=
  match mealWordRest t with
  | none => none
  | some r => some (mealSuffixRest r)

/-- Step 2 of `segmentMealText`:
`replace(/^(?:for\s+|at\s+|during\s+|my\s+)?(?:breakfast|lunch|dinner|snack)\s*(?:was|is|=|,)?\s*/i, '')`.
The four lead words have distinct first letters, so ordered trial with
fallback to the empty group reproduces the regex backtracking. -/
def stripMealTypePrefix (s : List Char) : List Char :=
  let lead := fun (w : List Char) =>
    match ciDropPrefix w s with
    | none => none
    | some r =>
      match dropWsRequired r with
      | none => none
      | some r2 => mealRest r2
  match lead (cl "for") <|> lead (cl "at") <|> lead (cl "during") <|>
      lead (cl "my") <|> mealRest s with
  | some r => r
  | none => s

/-- Step 3 of `segmentMealText`:
`replace(/^(?:i\s+(?:had|ate|was\s+eating|just\s+had))\s*/i, '')`. -/
def stripHadPrefix (s : List Char) : List Char :=
  match ciDropPrefix (cl "i") s with
  | none => s
  | some r =>
    match dropWsRequired r with
    | none => s
    | some r1 =>
      let verb :=
        ciDropPrefix (cl "had") r1 <|> ciDropPrefix (cl "ate") r1 <|>
          (match ciDropPrefix (cl "was") r1 with
           | none => none
           | some r2 =>
             match dropWsRequired r2 with
             | none => none
             | some r3 => ciDropPrefix (cl "eating") r3) <|>
          (match ciDropPrefix (cl "just") r1 with
           | none => none
           | some r2 =>
             match dropWsRequired r2 with
             | none => none
             | some r3 => ciDropPrefix (cl "had") r3)
      match verb with
      | none => s
      | some r4 => r4.dropWhile isWsChar

/-- An optional `word\s+` group: consume it when it matches in full,
otherwise leave the input unchanged (the lead words are never prefixes of
the main verbs, so greedy matching without backtracking is faithful). -/
def optionalLeadWord (w t : List Char) : List Char :=
  match ciDropPrefix w t with
  | none => t
  | some r =>
    match dropWsRequired r with
    | none => t
    | some r1 => r1

/-- Step 4 of `segmentMealText`:
`replace(/^(?:today\s+)?(?:i\s+)?(?:just\s+|also\s+)?(?:consumed|enjoyed|grabbed)\s*/i, '')`. -/
def stripStartersPrefix (s : List Char) : List Char :=
  let t1 := optionalLeadWord (cl "today") s
  let t2 := optionalLeadWord (cl "i") t1
  let t3 :=
    match (match ciDropPrefix (cl "just") t2 with
           | none => none
           | some r => dropWsRequired r) <|>
          (match ciDropPrefix (cl "also") t2 with
           | none => none
           | some r => dropWsRequired r) with
    | some r => r
    | none => t2
  match ciDropPrefix (cl "consumed") t3 <|> ciDropPrefix (cl "enjoyed") t3 <|>
      ciDropPrefix (cl "grabbed") t3 with
  | some r => r.dropWhile isWsChar
  | none => s

/-- Separator alternative 1: `\s+and\s+` (case-sensitive). -/
def sepAnd (s : List Char) : Option (List Char) :=
  match dropWsRequired s with
  | none => none
  | some r1 =>
    if (cl "and").isPrefixOf r1 then dropWsRequired (r1.drop 3) else none

/-- Separator alternative 2: `,\s*`. -/
def sepComma (s : List Char) : Option (List Char) :=
  match s with
  | ',' :: t => some (t.dropWhile isWsChar)
  | _ => none

/-- Separator alternative 3: `\+\s*`. -/
def sepPlus (s : List Char) : Option (List Char) :=
  match s with
  | '+' :: t => some (t.dropWhile isWsChar)
  | _ => none

/-- Separator alternative 4: `\s*&\s*`. -/
def sepAmp (s : List Char) : Option (List Char) :=
  match s.dropWhile isWsChar with
  | '&' :: r => some (r.dropWhile isWsChar)
  | _ => none

/-- The conjunction separator `(?:\s+and\s+|,\s*|\+\s*|\s*&\s*)` tested at
the head of `s` (alternatives in regex order); returns the remainder after
the separator. -/
def matchSeparator (s : List Char) : Option (List Char) :=
  sepAnd s <|> sepComma s <|> sepPlus s <|> sepAmp s

theorem dropWhile_length_le (p : Char → Bool) (s : List Char) :
    (s.dropWhile p).length ≤ s.length := by
  induction s with
  | nil => simp
  | cons c t ih =>
    by_cases h : p c
    · simp only [List.dropWhile_cons, h]
      exact Nat.le_succ_of_le ih
    · simp [List.dropWhile_cons, h]

theorem dropWsRequired_length {s r : List Char}
    (h : dropWsRequired s = some r) : r.length < s.length := by
  cases s with
  | nil => simp [dropWsRequired] at h
  | cons c t =>
    by_cases hc : isWsChar c
    · simp only [dropWsRequired, hc, if_pos, Option.some_inj] at h
      subst h
      exact Nat.lt_succ_of_le (dropWhile_length_le isWsChar t)
    · simp [dropWsRequired, hc] at h

theorem sepAnd_length {s r : List Char} (h : sepAnd s = some r) :
    r.length < s.length := by
  unfold sepAnd at h
  split at h
  · simp at h
  · next r1 hd =>
    split at h
    · have l1 : r1.length < s.length := dropWsRequired_length hd
      have l2 : r.length < (r1.drop 3).length := dropWsRequired_length h
      have l3 : (r1.drop 3).length ≤ r1.length := by simp
      omega
    · simp at h

theorem sepComma_length {s r : List Char} (h : sepComma s = some r) :
    r.length < s.length := by
  unfold sepComma at h
  split at h
  · next t =>
    simp only [Option.some_inj] at h
    subst h
    exact Nat.lt_succ_of_le (dropWhile_length_le isWsChar t)
  · simp at h

theorem sepPlus_length {s r : List Char} (h : sepPlus s = some r) :
    r.length < s.length := by
  unfold sepPlus at h
  split at h
  · next t =>
    simp only [Option.some_inj] at h
    subst h
    exact Nat.lt_succ_of_le (dropWhile_length_le isWsChar t)
  · simp at h

theorem sepAmp_length {s r : List Char} (h : sepAmp s = some r) :
    r.length < s.length := by
  unfold sepAmp at h
  split at h
  · next t hw =>
    simp only [Option.some_inj] at h
    subst h
    have l1 : (t.dropWhile isWsChar).length ≤ t.length :=
      dropWhile_length_le isWsChar t
    have l2 : ('&' :: t).length ≤ s.length := by
      rw [← hw]
      exact dropWhile_length_le isWsChar s
    simp only [List.length_cons] at l2
    omega
  · simp at h

theorem matchSeparator_length {s r : List Char}
    (h : matchSeparator s = some r) : r.length < s.length := by
  unfold matchSeparator at h
  rcases h1 : sepAnd s with _ | v1 <;> rw [h1] at h
  · rcases h2 : sepComma s with _ | v2 <;> rw [h2] at h
    · rcases h3 : sepPlus s with _ | v3 <;> rw [h3] at h
      · simp only [Option.none_orElse] at h
        exact sepAmp_length h
      · simp only [Option.none_orElse, Option.some_orElse, Option.some_inj] at h
        subst h
        exact sepPlus_length h3
    · simp only [Option.none_orElse, Option.some_orElse, Option.some_inj] at h
      subst h
      exact sepComma_length h2
  · simp only [Option.some_orElse, Option.some_inj] at h
    subst h
    exact sepAnd_length h1

/-- Scanner for JS `String.prototype.split` with the separator regex:
tries the separator at every position, left to right, accumulating the
current token (in reverse). -/
def splitGo (cur : List Char) (s : List Char) : List (List Char) :=
  match hsep : matchSeparator s with
  | some rest => cur.reverse :: splitGo [] rest
  | none =>
    match s with
    | [] => [cur.reverse]
    | c :: t => splitGo (c :: cur) t
termination_by s.length
decreasing_by
  · exact matchSeparator_length hsep
  · simp

/-- `split(/(?:\s+and\s+|,\s*|\+\s*|\s*&\s*)/)`. -/
def splitSegments (s : List Char) : List (List Char) :=
  splitGo [] s

/-- `segmentMealText` from `src/lib/ai/parsers.ts` (lines 231-274): strip
the four conversational prefixes in order, trim, split on conjunction
separators, trim each part and drop empties. -/
def segmentMealText (text : List Char) : List (List Char) :=
  let w1 := stripColonLabel text
  let w2 := stripMealTypePrefix w1
  let w3 := stripHadPrefix w2
  let w4 := stripStartersPrefix w3
  let cleaned := trimList w4
  ((splitSegments cleaned).map trimList).filter (fun p => p ≠ [])

/-- Digit run to a natural number. -/
def digitsToNat (ds : List Char) : ℕ :=
  ds.foldl (fun n c => 10 * n + (c.toNat - 48)) 0

/-- Value of `intPart.fracPart` as an exact rational. -/
def decimalValue (ip fp : List Char) : ℚ :=
  (digitsToNat ip : ℚ) + (digitsToNat fp : ℚ) / (10 ^ fp.length)

/-- JS `Number(cleaned)` restricted to the digit / digit-dot-digit shapes
the quantity regexes can capture, with `NaN → 1` as in
`parseQuantityValue`; the empty string is 0 as in JS. -/
def jsNumberOr1 (s : List Char) : ℚ :=
  if s = [] then 0
  else
    let ip := s.takeWhile Char.isDigit
    let rest := s.drop ip.length
    if rest = [] ∧ ip ≠ [] then digitsToNat ip
    else
      match rest with
      | '.' :: fp =>
        if ip ≠ [] ∧ fp ≠ [] ∧ fp.all Char.isDigit then decimalValue ip fp else 1
      | _ => 1

/-- `parseQuantityValue` from `src/lib/ai/parsers.ts` (lines 552-564):
strip whitespace; a fraction `a/b` with numeric parts and non-zero
denominator is `a / b`; otherwise `Number(cleaned)` with `NaN → 1`. -/
def parseQuantityValue (raw : List Char) : ℚ :=
  let cleaned := raw.filter (fun c => ¬ isWsChar c)
  if cleaned.contains '/' then
    let numerator := cleaned.takeWhile (fun c => c ≠ '/')
    let denominator := (cleaned.drop (numerator.length + 1)).takeWhile (fun c => c ≠ '/')
    if numerator ≠ [] ∧ numerator.all Char.isDigit ∧
        denominator ≠ [] ∧ denominator.all Char.isDigit ∧
        digitsToNat denominator ≠ 0 then
      (digitsToNat numerator : ℚ) / (digitsToNat denominator : ℚ)
    else jsNumberOr1 cleaned
  else jsNumberOr1 cleaned

/-- The unit alternation of the quantity regex
`(cups?|cup|c|tablespoons?|tbsp|tbsps?|teaspoons?|tsp|tsps?|ounces?|oz|oz_fl|grams?|g|servings?|serving|pieces?|piece|slices?|slice)`,
expanded in the order the regex engine tries the alternatives (each `X?`
greedy, longer form first). -/
def unitAltCandidates : List (List Char) :=
  [cl "cups", cl "cup", cl "cup", cl "c",
   cl "tablespoons", cl "tablespoon", cl "tbsp", cl "tbsps", cl "tbsp",
   cl "teaspoons", cl "teaspoon", cl "tsp", cl "tsps", cl "tsp",
   cl "ounces", cl "ounce", cl "oz", cl "oz_fl",
   cl "grams", cl "gram", cl "g",
   cl "servings", cl "serving", cl "serving",
   cl "pieces", cl "piece", cl "slices", cl "slice"]

/-- Length of the unit token matched (case-insensitively) at the head of
`s`, subject to the trailing `\b` (next character, if any, is not a word
character); the first passing alternative wins. -/
def unitAltMatch (s : List Char) : Option ℕ :=
  (unitAltCandidates.find? fun w =>
    (lowerList (s.take w.length) = w : Bool) &&
      match (s.drop w.length).head? with
      | some c => ! isWordChar c
      | none => true).map List.length

/-- Length of a maximal digit run at the head of `s` (regex `\d+`,
greedy; reducing it can never help because no continuation of the
quantity regex can start with a digit). -/
def digitRunLength (s : List Char) : ℕ :=
  (s.takeWhile Char.isDigit).length

/-- Length matched by the fraction alternative `\d+\s*\/\s*\d+` at the
head of `s`, if it matches. -/
def fracMatchLength (s : List Char) : Option ℕ :=
  let d1 := digitRunLength s
  if d1 = 0 then none
  else
    let r1 := s.drop d1
    let w1 := (r1.takeWhile isWsChar).length
    match r1.drop w1 with
    | '/' :: r3 =>
      let w2 := (r3.takeWhile isWsChar).length
      let d2 := digitRunLength (r3.drop w2)
      if d2 = 0 then none else some (d1 + w1 + 1 + w2 + d2)
    | _ => none

/-- Length matched by the decimal alternative `\d+(?:\.\d+)?` at the head
of `s`, if it matches (the optional fractional part is greedy). -/
def decMatchLength (s : List Char) : Option ℕ :=
  let d1 := digitRunLength s
  if d1 = 0 then none
  else
    match s.drop d1 with
    | '.' :: r2 =>
      let d2 := digitRunLength r2
      if d2 = 0 then some d1 else some (d1 + 1 + d2)
    | _ => some d1

/-- Attempt the full quantity regex at the head of `s`: the number group
(fraction first, then the decimal interpretation as regex backtracking
would), then `\s*`, then a unit alternative with trailing `\b`. Returns
`(numberLength, wsLength, unitLength)`. -/
def quantityMatchAt (s : List Char) : Option (ℕ × ℕ × ℕ) :=
  let tryNum := fun (n : ℕ) =>
    let ws := ((s.drop n).takeWhile isWsChar).length
    match unitAltMatch (s.drop (n + ws)) with
    | some u => some (n, ws, u)
    | none => none
  (match fracMatchLength s with
   | some n => tryNum n
   | none => none) <|>
  (match decMatchLength s with
   | some n => tryNum n
   | none => none)

/-- Leftmost position (scan) where the quantity regex matches: returns the
prefix before the match and the `(number, ws, unit)` lengths. -/
def quantityScan : List Char → Option (ℕ × (ℕ × ℕ × ℕ))
  | [] => none
  | s@(_ :: t) =>
    match quantityMatchAt s with
    | some m => some (0, m)
    | none =>
      match quantityScan t with
      | some (i, m) => some (i + 1, m)
      | none => none

/-- `extractQuantityInfo` from `src/lib/ai/parsers.ts` (lines 528-550):
the full quantity regex anywhere in the text, else the anchored leading
number `/^(\d+\s*\/\s*\d+|\d+(?:\.\d+)?)/` with null unit, else null. -/
def extractQuantityInfo (text : List Char) : Option MealItemQuantity :=
  match quantityScan text with
  | some (i, n, w, u) =>
    let here := text.drop i
    some
      { value := some (parseQuantityValue (here.take n))
        unit := normalizeUnit ((here.drop (n + w)).take u)
        display := some (here.take (n + w + u)) }
  | none =>
    match fracMatchLength text <|> decMatchLength text with
    | some n =>
      some
        { value := some (parseQuantityValue (text.take n))
          unit := none
          display := some (text.take n) }
    | none => none

/-- `deriveItemName` from `src/lib/ai/parsers.ts` (lines 411-413):
trim, then strip the leading run of digits, dots, slashes and spaces. -/
def deriveItemName (part : List Char) : List Char :=
  (trimList part).dropWhile (fun c => c.isDigit || c = '.' || c = '/' || isWsChar c)

/-- `estimateNutritionFromHeuristics` from `src/lib/ai/parsers.ts`
(lines 415-426): wraps the heuristic macros, null fiber, source
`heuristic`, confidence 0.4. -/
def estimateNutritionFromHeuristics (part : List Char)
    (quantity : MealItemQuantity) : NutritionEstimate :=
  let macros := estimateItemMacros part quantity
  { caloriesKcal := some macros.calories
    proteinG := some macros.protein
    carbsG := some macros.carbs
    fatG := some macros.fat
    fiberG := none
    source := some .heuristic
    confidence := some (2 / 5) }

/-- `convertToMl` from `src/lib/ai/parsers.ts` (lines 453-466). -/
def convertToMl (quantity : MealItemQuantity) : Option ℚ :=
  match quantity.unit, quantity.value with
  | some u, some v =>
    match u with
    | .cup => some (toFixed2 (v * 240))
    | .oz_fl => some (toFixed2 (v * 29.5735))
    | .ml => some (toFixed2 v)
    | _ => none
  | _, _ => none

/-- `detectAlcohol` from `src/lib/ai/parsers.ts` (lines 428-440):
substring match on beer/lager/wine/ale in the lower-cased part. -/
def detectAlcohol (part : List Char) (quantity : MealItemQuantity) :
    Option AlcoholInfo :=
  let lower := lowerList part
  if ! (containsSub (cl "beer") lower || containsSub (cl "lager") lower ||
        containsSub (cl "wine") lower || containsSub (cl "ale") lower) then
    none
  else
    some { isAlcohol := true, abvPct := none, volumeMl := convertToMl quantity }

/-- `defaultLookup`. -/
def defaultLookup : MealItemLookup :=
  { status := .pending, candidates := [] }

/-- `deriveFlags` from `src/lib/ai/parsers.ts` (lines 446-451):
`needsLookup := !nutrition`, `needsPortion := quantity.value === null`. -/
def deriveFlags (quantity : MealItemQuantity)
    (nutrition : Option NutritionEstimate) : MealItemFlags :=
  { needsLookup := nutrition.isNone
    needsPortion := quantity.value.isNone }

/-- `MealType` (`'breakfast' | 'lunch' | 'dinner' | 'snack'`). -/
inductive MealType where
  | breakfast
  | lunch
  | dinner
  | snack
deriving DecidableEq, Repr

/-- `MealParseResult.mealType` also admits `'drink'` and `'unknown'`. -/
inductive MealTypeOut where
  | breakfast
  | lunch
  | dinner
  | snack
  | drink
  | unknown
deriving DecidableEq, Repr

/-- Inclusion of `MealType` into the result meal types (the value of
`normalizeMealType` on `inferMealType`'s output, which always passes the
membership check). -/
def liftMealType : MealType → MealTypeOut
  | .breakfast => .breakfast
  | .lunch => .lunch
  | .dinner => .dinner
  | .snack => .snack

/-- `inferMealType` from `src/lib/ai/parsers.ts` (lines 620-632); the
wall-clock hour of `new Date().getHours()` is passed explicitly. -/
def inferMealType (text : List Char) (hour : ℕ) : MealType :=
  let normalized := lowerList text
  if containsSub (cl "breakfast") normalized then .breakfast
  else if containsSub (cl "lunch") normalized then .lunch
  else if containsSub (cl "dinner") normalized then .dinner
  else if containsSub (cl "snack") normalized then .snack
  else if hour < 11 then .breakfast
  else if hour < 15 then .lunch
  else if hour < 20 then .dinner
  else .snack

/-- `source` tag of a `MealParseAudit` (`'llm' | 'heuristic'`). -/
inductive AuditSource where
  | llm
  | heuristic
deriving DecidableEq, Repr

/-- `MealParseAudit` from `src/lib/types.ts`. -/
structure MealParseAudit where
  messageId : Option (List Char)
  inputText : List Char
  parsedBy : Option (List Char)
  version : Option (List Char)
  source : Option AuditSource
deriving DecidableEq, Repr

/-- `MealParseResult` from `src/lib/types.ts`. -/
structure MealParseResult where
  mealType : MealTypeOut
  contextNote : Option (List Char)
  items : List StructuredMealItem
  totals : Option NutritionEstimate
  confidence : ParseConfidence
  audit : Option MealParseAudit
deriving DecidableEq, Repr

/-- The item built for one segmented part inside `heuristicMealParser`
(`src/lib/ai/parsers.ts` lines 198-216). -/
def heuristicItem (part : List Char) : StructuredMealItem :=
  let quantityInfo := extractQuantityInfo part
  let quantity := quantityInfo.getD { value := none, unit := none, display := none }
  let nutrition := estimateNutritionFromHeuristics part quantity
  { rawText := part
    name := deriveItemName part
    brand := none
    preparation := []
    quantity := quantity
    sizeHint := none
    alcohol := detectAlcohol part quantity
    nutritionEstimate := some nutrition
    lookup := defaultLookup
    flags := deriveFlags quantity (some nutrition)
    confidence := .medium }

/-- `heuristicMealParser` from `src/lib/ai/parsers.ts` (lines 193-229);
the wall-clock hour is passed explicitly (it is only consulted when the
text names no meal type). -/
def heuristicMealParser (text : List Char) (hour : ℕ) : MealParseResult :=
  let cleanedInput := trimList text
  let parts := segmentMealText cleanedInput
  let inferredType := inferMealType cleanedInput hour
  let items := parts.map heuristicItem
  { mealType := liftMealType inferredType
    contextNote := none
    items := items
    totals := computeTotals items
    confidence := .medium
    audit := some { messageId := none, inputText := text, parsedBy := none
                    version := none, source := some .heuristic } }

/-- C9 (amended): every `StructuredMealItem` produced by the heuristic
meal-parse path of `src/lib/ai/parsers.ts` has `flags.needsLookup = false`
— NOT true as claimed — because the heuristic estimator always attaches a
nutrition estimate and `deriveFlags` sets `needsLookup` exactly when the
estimate is absent; `flags.needsPortion = true` exactly when the item's
`quantity.value` is null, as claimed. (The separate `MealParserAgent`
heuristic path in the agents module is the one that hard-codes
`needsLookup: true`.) -/
theorem C9_heuristic_flags_amended (text : List Char) (hour : ℕ) :
    ∀ it ∈ (heuristicMealParser text hour).items,
      it.flags.needsLookup = false ∧
      (it.flags.needsPortion = true ↔ it.quantity.value = none) := by
  intro it hit
  simp only [heuristicMealParser, List.mem_map] at hit
  obtain ⟨part, _, rfl⟩ := hit
  constructor
  · simp [heuristicItem, deriveFlags]
  · simp [heuristicItem, deriveFlags, Option.isNone_iff_eq_none]

/-- Witness for C9 (amended) at the concrete input `"1 apple"`. -/
theorem C9_heuristic_flags_amended_witness :
    (heuristicItem (cl "1 apple")).flags.needsLookup = false ∧
    ((heuristicItem (cl "1 apple")).flags.needsPortion = true ↔
      (heuristicItem (cl "1 apple")).quantity.value = none) :=
  C9_heuristic_flags_amended (cl "1 apple") 9 (heuristicItem (cl "1 apple"))
    (by with_unfolding_all decide)

/-- C9 counterexample: parsing `"1 apple"` heuristically yields one item
whose `flags.needsLookup` is `false`, contradicting the claim that every
heuristic item has `needsLookup = true`. -/
theorem C9_counterexample :
    ((heuristicMealParser (cl "1 apple") 9).items.map
      (fun it => it.flags.needsLookup)) = [false] := by
  with_unfolding_all rfl

/-- The regex `\b` condition on the left edge of a keyword occurrence:
satisfied at the string start or after a non-word character (every
keyword starts with a word character). -/
def leftBoundaryOk (prev : Option Char) : Bool :=
  match prev with
  | none => true
  | some c => ! isWordChar c

/-- The regex `\b` condition on the right edge: satisfied at the string
end or before a non-word character (every keyword ends with a word
character). -/
def rightBoundaryOk (rest : List Char) : Bool :=
  match rest with
  | [] => true
  | c :: _ => ! isWordChar c

/-- `new RegExp("\\b" + kw + "\\b").test` anchored at the current
position: the keyword is a prefix here and both boundary conditions
hold. -/
def bmHere (kw : List Char) (prev : Option Char) (s : List Char) : Bool :=
  kw.isPrefixOf s && leftBoundaryOk prev && rightBoundaryOk (s.drop kw.length)

/-- Scan of the word-boundary test over all positions, carrying the
previous character. -/
def bmAux (kw : List Char) (prev : Option Char) : List Char → Bool
  | [] => bmHere kw prev []
  | c :: t => bmHere kw prev (c :: t) || bmAux kw (some c) t

/-- `new RegExp("\\b" + kw + "\\b").test(s)`. -/
def boundaryMatch (kw s : List Char) : Bool :=
  bmAux kw none s

/-- Left-edge condition expressed on an explicit prefix: the last
character of `pre` (or, when `pre` is empty, the carried previous
character) must not be a word character. -/
def lastCharOk (prev : Option Char) : List Char → Bool
  | [] => leftBoundaryOk prev
  | c :: pre => lastCharOk (some c) pre

/-- Declarative form of a word-boundary occurrence, relative to a carried
previous character. -/
def occursWithBoundaryAux (kw : List Char) (prev : Option Char)
    (s : List Char) : Prop :=
  ∃ pre post, s = pre ++ kw ++ post ∧ lastCharOk prev pre = true ∧
    rightBoundaryOk post = true

/-- Declarative form of a word-boundary occurrence of `kw` in `s`: `s`
splits as `pre ++ kw ++ post` where `pre` does not end in a word
character and `post` does not start with one. -/
def occursWithBoundary (kw s : List Char) : Prop :=
  occursWithBoundaryAux kw none s

theorem lastCharOk_cons (prev : Option Char) (c : Char) (pre : List Char) :
    lastCharOk prev (c :: pre) = lastCharOk (some c) pre :=
  rfl

theorem bmAux_iff (kw : List Char) (hkw : kw ≠ []) :
    ∀ (s : List Char) (prev : Option Char),
      bmAux kw prev s = true ↔ occursWithBoundaryAux kw prev s := by
  intro s
  induction s with
  | nil =>
    intro prev
    constructor
    · intro h
      exfalso
      cases kw with
      | nil => exact hkw rfl
      | cons a b => simp [bmAux, bmHere, List.isPrefixOf] at h
    · rintro ⟨pre, post, hs, -, -⟩
      exact absurd (List.append_eq_nil.mp
        (List.append_eq_nil.mp hs.symm).1).2 hkw
  | cons c t ih =>
    intro prev
    simp only [bmAux, Bool.or_eq_true]
    rw [ih (some c)]
    constructor
    · rintro (hhere | haux)
      · simp only [bmHere, Bool.and_eq_true] at hhere
        obtain ⟨⟨hpre, hleft⟩, hright⟩ := hhere
        obtain ⟨post, hpost⟩ := List.isPrefixOf_iff_prefix.mp hpre
        refine ⟨[], post, by simp [← hpost], ?_, ?_⟩
        · simpa [lastCharOk] using hleft
        · rwa [← hpost, List.drop_left] at hright
      · obtain ⟨pre, post, hs, hlast, hright⟩ := haux
        exact ⟨c :: pre, post, by simp [hs],
          by rwa [lastCharOk_cons], hright⟩
    · rintro ⟨pre, post, hs, hlast, hright⟩
      cases pre with
      | nil =>
        left
        simp only [List.nil_append] at hs
        have hpre : kw.isPrefixOf (c :: t) = true :=
          List.isPrefixOf_iff_prefix.mpr ⟨post, hs.symm⟩
        have hdrop : (c :: t).drop kw.length = post := by
          rw [hs, List.drop_left]
        have hleft : leftBoundaryOk prev = true := by
          simpa [lastCharOk] using hlast
        simp [bmHere, hpre, hdrop, hleft, hright]
      | cons c' pre' =>
        right
        have hc : c' = c ∧ t = pre' ++ kw ++ post := by
          have := hs
          simp only [List.cons_append] at this
          exact ⟨(List.cons.injEq _ _ _ _ ▸ this).1.symm,
            (List.cons.injEq _ _ _ _ ▸ this).2⟩
        refine ⟨pre', post, hc.2, ?_, hright⟩
        rw [← lastCharOk_cons prev c pre', ← hc.1]
        exact hlast

/-- `mealKeywords` from the intent classifier, in source order. -/
def mealKeywords : List (List Char) :=
  [cl "ate", cl "eating", cl "breakfast", cl "lunch", cl "dinner", cl "snack",
   cl "had", cl "having", cl "slice", cl "pizza", cl "apple", cl "cheese",
   cl "bread", cl "egg", cl "eggs", cl "cottage", cl "muffin", cl "meal",
   cl "food", cl "drink", cl "coffee", cl "smoothie", cl "salad",
   cl "sandwich", cl "burger", cl "chicken", cl "beef", cl "pasta", cl "rice"]

/-- `workoutKeywords` from the intent classifier. -/
def workoutKeywords : List (List Char) :=
  [cl "ran", cl "run", cl "walk", cl "walked", cl "yoga", cl "lifted",
   cl "workout", cl "ride", cl "cycled", cl "swam", cl "pushup",
   cl "push-ups", cl "pushups", cl "squat", cl "lunges", cl "mobility",
   cl "plank"]

/-- `planKeywords`. -/
def planKeywords : List (List Char) :=
  [cl "plan", cl "today", cl "workout plan"]

/-- `nutritionKeywords`. -/
def nutritionKeywords : List (List Char) :=
  [cl "protein", cl "macros", cl "calories", cl "nutrition", cl "eat"]

/-- `progressKeywords`. -/
def progressKeywords : List (List Char) :=
  [cl "progress", cl "week", cl "adherence", cl "how am i doing"]

/-- Mood payload of a `statusUpdate` intent. -/
inductive Mood where
  | tired
  | sore
  | energized
  | neutral
deriving DecidableEq, Repr

/-- `CoachIntent` tagged union from the intent classifier module. -/
inductive CoachIntent where
  | logMeal (text : List Char)
  | logWorkout (text : List Char)
  | statusUpdate (mood : Mood)
  | askPlan
  | askNutritionSummary
  | askProgress
  | smallTalk
  | unknown
deriving DecidableEq, Repr

/-- Discriminator for the `logMeal` variant. -/
def CoachIntent.isLogMeal : CoachIntent → Bool
  | .logMeal _ => true
  | _ => false

/-- `detectIntent` from the intent classifier (`src/unnamed/part_013`
lines 40-92): the nutrition-question guard first, then word-boundary meal
and workout keyword matches, mood keywords, plan / nutrition / progress
keyword groups, greetings, default `unknown`. -/
def detectIntent (message : List Char) : CoachIntent :=
  let normalized := lowerList message
  if containsSub (cl "estimate") normalized ||
      containsSub (cl "how many calories") normalized ||
      containsSub (cl "nutrition info") normalized ||
      containsSub (cl "nutritional value") normalized ||
      (containsSub (cl "what") normalized &&
        (containsSub (cl "protein") normalized ||
         containsSub (cl "calories") normalized)) then
    .unknown
  else if mealKeywords.any (fun kw => boundaryMatch kw normalized) then
    .logMeal message
  else if workoutKeywords.any (fun kw => boundaryMatch kw normalized) then
    .logWorkout message
  else if containsSub (cl "tired") normalized ||
      containsSub (cl "exhausted") normalized then
    .statusUpdate .tired
  else if containsSub (cl "sore") normalized then
    .statusUpdate .sore
  else if containsSub (cl "energized") normalized ||
      containsSub (cl "great") normalized then
    .statusUpdate .energized
  else if planKeywords.any (fun kw => containsSub kw normalized) then
    .askPlan
  else if nutritionKeywords.any (fun kw => containsSub kw normalized) &&
      containsSub (cl "how") normalized then
    .askNutritionSummary
  else if progressKeywords.any (fun kw => containsSub kw normalized) then
    .askProgress
  else if containsSub (cl "hi") normalized ||
      containsSub (cl "hello") normalized ||
      containsSub (cl "thanks") normalized then
    .smallTalk
  else
    .unknown

/-- C2: `detectIntent` matches meal keywords only at word boundaries: for
every message in which no meal keyword occurs at a word boundary (i.e.
every occurrence is a proper substring of a longer word), the classifier
does not return `logMeal`. -/
theorem mealKeywords_ne_nil : ∀ kw ∈ mealKeywords, kw ≠ [] := by
  decide

set_option maxHeartbeats 1000000 in
theorem C2_word_boundary_no_logMeal (message : List Char)
    (h : ∀ kw ∈ mealKeywords, ¬ occursWithBoundary kw (lowerList message)) :
    (detectIntent message).isLogMeal = false := by
  have hM : mealKeywords.any
      (fun kw => boundaryMatch kw (lowerList message)) = false := by
    rw [List.any_eq_false]
    intro kw hkw
    intro hb
    exact h kw hkw
      ((bmAux_iff kw (mealKeywords_ne_nil kw hkw) (lowerList message) none).mp hb)
  unfold detectIntent
  simp only [hM]
  split_ifs <;> simp_all [CoachIntent.isLogMeal]

/-- The spec's probe message `"let's estimate calories"` (apostrophe
written as an explicit character). -/
def c2Message : List Char :=
  cl "let" ++ ['\''] ++ cl "s estimate calories"

set_option maxHeartbeats 2000000 in
/-- Witness for C2: `detectIntent` on `"let's estimate calories"` is not a
`logMeal` intent (the substring `"ate"` inside `"estimate"` does not
trigger meal logging). -/
theorem C2_word_boundary_no_logMeal_witness :
    (detectIntent c2Message).isLogMeal = false :=
  C2_word_boundary_no_logMeal c2Message (by
    intro kw hkw hocc
    have hb := (bmAux_iff kw (mealKeywords_ne_nil kw hkw) (lowerList c2Message)
      none).mpr hocc
    revert hb
    fin_cases hkw <;> decide)

/-- Optional single whitespace (`\s?`) before a letter-initial literal:
consuming the whitespace when present is equivalent to full regex
backtracking because the continuation never starts with whitespace. -/
def skipOptWs (rest : List Char) : List Char :=
  match rest with
  | c :: t => if isWsChar c then t else rest
  | [] => rest

/-- The minutes regex `/(\d{1,3})\s?(?:min|mins|minute|minutes)/` tried at
the head of `s`: greedy 3-2-1 digits, one optional whitespace, then the
alternation (whose first alternative `min` is a prefix of all others).
Returns the captured number. -/
def minutesAt (s : List Char) : Option ℕ :=
  let tryK := fun (k : ℕ) =>
    let d := s.take k
    if d.length = k && d.all Char.isDigit then
      if (cl "min").isPrefixOf (skipOptWs (s.drop k)) then
        some (digitsToNat d)
      else none
    else none
  tryK 3 <|> tryK 2 <|> tryK 1

/-- Leftmost match of the minutes regex. -/
def findMinutes : List Char → Option ℕ
  | [] => none
  | s@(_ :: t) => minutesAt s <|> findMinutes t

/-- The distance-unit alternation `(?:mile|miles|km|kilometers)` after an
optional single whitespace (`mile` subsumes `miles`). -/
def milesUnitAfter (rest : List Char) : Bool :=
  let r := skipOptWs rest
  (cl "mile").isPrefixOf r || (cl "km").isPrefixOf r ||
    (cl "kilometers").isPrefixOf r

/-- The fraction continuation `(?:\.\d+)?` (greedy) of the miles regex:
given the digit run `d1` and remainder `r0`, the reading that consumes a
fractional part and then the unit. -/
def milesFracAt (d1 r0 : List Char) : Option ℚ :=
  match r0 with
  | '.' :: r1 =>
    let fs := r1.takeWhile Char.isDigit
    if fs = [] then none
    else if milesUnitAfter (r1.drop fs.length) then some (decimalValue d1 fs)
    else none
  | _ => none

/-- The miles regex `/(\d+(?:\.\d+)?)\s?(?:mile|miles|km|kilometers)/`
tried at the head of `s`: maximal digit run, greedy optional fraction
(with backtracking to the no-fraction reading), optional whitespace, unit
alternation. Returns the captured number. -/
def milesAt (s : List Char) : Option ℚ :=
  let d1 := s.takeWhile Char.isDigit
  if d1 = [] then none
  else
    match milesFracAt d1 (s.drop d1.length) with
    | some v => some v
    | none =>
      if milesUnitAfter (s.drop d1.length) then some (digitsToNat d1 : ℚ)
      else none

/-- Leftmost match of the miles regex. -/
def findMiles : List Char → Option ℚ
  | [] => none
  | s@(_ :: t) => milesAt s <|> findMiles t

/-- `WorkoutLog['intensity']`. -/
inductive Intensity where
  | easy
  | moderate
  | hard
deriving DecidableEq, Repr

/-- `WorkoutStatus` (`'planned' | 'completed' | 'skipped'`). -/
inductive WorkoutStatus where
  | planned
  | completed
  | skipped
deriving DecidableEq, Repr

/-- `workoutKeywordMap` from `src/lib/ai/workouts.ts` (lines 3-27), as an
ordered association list (`Object.keys` preserves insertion order). -/
def workoutKeywordPairs : List (List Char × List Char) :=
  [(cl "run", cl "Run"), (cl "jog", cl "Run"), (cl "walk", cl "Walk"),
   (cl "hike", cl "Hike"), (cl "yoga", cl "Yoga"), (cl "lift", cl "Strength"),
   (cl "weights", cl "Strength"), (cl "strength", cl "Strength"),
   (cl "pushup", cl "Strength"), (cl "push-ups", cl "Strength"),
   (cl "pushups", cl "Strength"), (cl "squat", cl "Strength"),
   (cl "squats", cl "Strength"), (cl "lunges", cl "Strength"),
   (cl "plank", cl "Core"), (cl "bike", cl "Ride"), (cl "ride", cl "Ride"),
   (cl "cycle", cl "Ride"), (cl "swim", cl "Swim"), (cl "row", cl "Row"),
   (cl "mobility", cl "Mobility"), (cl "pilates", cl "Pilates"),
   (cl "hiit", cl "HIIT")]

/-- `intensityMap` from `src/lib/ai/workouts.ts` (lines 29-39). -/
def intensityPairs : List (List Char × Intensity) :=
  [(cl "easy", .easy), (cl "light", .easy), (cl "chill", .easy),
   (cl "moderate", .moderate), (cl "steady", .moderate),
   (cl "normal", .moderate), (cl "hard", .hard), (cl "intense", .hard),
   (cl "spicy", .hard)]

/-- `ParsedWorkoutResult` from `src/lib/ai/workouts.ts`. -/
structure ParsedWorkoutResult where
  type : List Char
  minutes : ℤ
  intensity : Intensity
  description : List Char
  status : WorkoutStatus
  distance : Option ℚ
deriving DecidableEq, Repr

/-- `inferIntensity` from `src/lib/ai/workouts.ts` (lines 74-78). -/
def inferIntensity (type : List Char) (minutes : ℤ) : Intensity :=
  if type = cl "Yoga" ∨ type = cl "Walk" ∨ minutes ≤ 20 then .easy
  else if 50 ≤ minutes then .hard
  else .moderate

/-- `parseWorkoutFromText` from `src/lib/ai/workouts.ts` (lines 50-72):
minutes from the duration regex when present, else `round(miles * 12)`
when a distance is present, else 20; type and intensity from the first
keyword whose text occurs as a substring; status always `completed`. -/
def parseWorkoutFromText (text : List Char) : ParsedWorkoutResult :=
  let normalized := lowerList text
  let minutesMatch := findMinutes normalized
  let milesMatch := findMiles normalized
  let keyword := workoutKeywordPairs.find? (fun p => containsSub p.1 normalized)
  let intensityKeyword := intensityPairs.find? (fun p => containsSub p.1 normalized)
  let baseType := match keyword with | some p => p.2 | none => cl "Activity"
  let minutes : ℤ :=
    match minutesMatch with
    | some n => (n : ℤ)
    | none =>
      match milesMatch with
      | some q => jsRound (q * 12)
      | none => 20
  { type := baseType
    minutes := minutes
    intensity :=
      match intensityKeyword with
      | some p => p.2
      | none => inferIntensity baseType minutes
    description := trimList text
    status := .completed
    distance := milesMatch }

theorem jsRound_nonneg (q : ℚ) (h : 0 ≤ q) : 0 ≤ jsRound q := by
  unfold jsRound
  apply Int.fdiv_nonneg
  · have hnum : 0 ≤ q.num := Rat.num_nonneg.mpr h
    have hden : (0 : ℤ) ≤ (q.den : ℤ) := Int.ofNat_nonneg _
    omega
  · have hden : (0 : ℤ) ≤ (q.den : ℤ) := Int.ofNat_nonneg _
    omega

theorem decimalValue_nonneg (ip fp : List Char) : 0 ≤ decimalValue ip fp := by
  unfold decimalValue
  positivity

theorem milesFracAt_nonneg {d1 r0 : List Char} {v : ℚ}
    (h : milesFracAt d1 r0 = some v) : 0 ≤ v := by
  unfold milesFracAt at h
  split at h
  · dsimp only at h
    split_ifs at h
    simp only [Option.some_inj] at h
    subst h
    exact decimalValue_nonneg _ _
  · simp at h

theorem milesAt_nonneg {s : List Char} {q : ℚ} (h : milesAt s = some q) :
    0 ≤ q := by
  unfold milesAt at h
  dsimp only at h
  by_cases h1 : s.takeWhile Char.isDigit = []
  · rw [if_pos h1] at h
    simp at h
  · rw [if_neg h1] at h
    rcases h2 : milesFracAt (s.takeWhile Char.isDigit)
        (s.drop (s.takeWhile Char.isDigit).length) with _ | v
    all_goals rw [h2] at h
    · split_ifs at h
      simp only [Option.some_inj] at h
      subst h
      positivity
    · simp only [Option.some_inj] at h
      subst h
      exact milesFracAt_nonneg h2

theorem findMiles_nonneg :
    ∀ {s : List Char} {q : ℚ}, findMiles s = some q → 0 ≤ q := by
  intro s
  induction s with
  | nil => intro q h; simp [findMiles] at h
  | cons c t ih =>
    intro q h
    unfold findMiles at h
    rcases h0 : milesAt (c :: t) with _ | v <;> rw [h0] at h
    · simp only [Option.none_orElse] at h
      exact ih h
    · simp only [Option.some_orElse, Option.some_inj] at h
      subst h
      exact milesAt_nonneg h0

/-- C7 (amended): `parseWorkoutFromText` is a total function (the
embedding never throws or returns null) and its `minutes` is always
non-negative; it equals 20 when the text contains neither a duration nor
a distance, and `round(distance * 12)` when a distance but no duration is
present. Strict positivity — as the claim states it — fails exactly when
the text itself supplies a zero duration (`"0 minutes"`) or a distance
rounding to zero. -/
theorem C7_parseWorkout_amended (text : List Char) :
    0 ≤ (parseWorkoutFromText text).minutes ∧
    (findMinutes (lowerList text) = none ∧ findMiles (lowerList text) = none →
      (parseWorkoutFromText text).minutes = 20) ∧
    (∀ q : ℚ, findMinutes (lowerList text) = none →
      findMiles (lowerList text) = some q →
      (parseWorkoutFromText text).minutes = jsRound (q * 12)) := by
  refine ⟨?_, ?_, ?_⟩
  · unfold parseWorkoutFromText
    rcases hmin : findMinutes (lowerList text) with _ | n
    · rcases hmi : findMiles (lowerList text) with _ | q
      · simp [hmin, hmi]
      · simp only [hmin, hmi]
        have hq : 0 ≤ q := findMiles_nonneg hmi
        have h12 : 0 ≤ q * 12 := by linarith
        exact jsRound_nonneg _ h12
    · simp [hmin]
  · rintro ⟨hmin, hmi⟩
    simp [parseWorkoutFromText, hmin, hmi]
  · intro q hmin hmi
    simp [parseWorkoutFromText, hmin, hmi]

/-- Witness for C7 (amended): a workout text with no duration and no
distance defaults to 20 minutes. -/
theorem C7_parseWorkout_amended_witness :
    (parseWorkoutFromText (cl "went for a hike")).minutes = 20 :=
  (C7_parseWorkout_amended (cl "went for a hike")).2.1 ⟨by decide, by decide⟩

/-- C7 counterexample: `"ran 0 minutes"` is non-empty, yet the parsed
minutes is 0, not strictly greater than 0 as the claim states. -/
theorem C7_counterexample :
    cl "ran 0 minutes" ≠ [] ∧
    (parseWorkoutFromText (cl "ran 0 minutes")).minutes = 0 := by
  constructor
  · decide
  · with_unfolding_all rfl

/-- A calendar date (the model of an ISO `YYYY-MM-DD` string after
`parseISO`). -/
structure CivilDate where
  year : ℤ
  month : ℤ
  day : ℤ
deriving DecidableEq, Repr

/-- Days since 1970-01-01 of a civil date (the standard civil-from-days
algorithm used by calendar libraries, with floor division). -/
def daysFromCivil (d : CivilDate) : ℤ :=
  let y := if d.month ≤ 2 then d.year - 1 else d.year
  let era := y.fdiv 400
  let yoe := y - era * 400
  let mp := (d.month + 9) % 12
  let doy := (153 * mp + 2).fdiv 5 + d.day - 1
  let doe := yoe * 365 + yoe.fdiv 4 - yoe.fdiv 100 + doy
  era * 146097 + doe - 719468

/-- JS `Date.prototype.getDay` on an epoch-day number: 0 = Sunday
(1970-01-01 was a Thursday). -/
def getDay (n : ℤ) : ℤ :=
  (n + 4) % 7

/-- date-fns `startOfWeek(date, { weekStartsOn: 1 })` on epoch days: step
back `(7 + getDay(date) - 1) % 7` days to the most recent Monday. -/
def startOfWeekMonday (n : ℤ) : ℤ :=
  n - (7 + getDay n - 1) % 7

/-- date-fns `differenceInCalendarDays` on epoch days. -/
def differenceInCalendarDays (a b : ℤ) : ℤ :=
  a - b

/-- Membership in the Monday-start week of `a` (the code's
`0 ≤ diff < 7` filter) is the same as having the same ISO week start. -/
theorem week_mem_iff (a w : ℤ) :
    (0 ≤ w - startOfWeekMonday a ∧ w - startOfWeekMonday a < 7) ↔
      startOfWeekMonday w = startOfWeekMonday a := by
  unfold startOfWeekMonday getDay
  omega

/-- `WorkoutLog` from `src/lib/types.ts`; `minutes` is a natural number
(durations in the app are non-negative integers) and the date is a civil
date. -/
structure WorkoutLog where
  id : List Char
  dayId : List Char
  date : CivilDate
  type : List Char
  minutes : ℕ
  distance : Option ℚ
  intensity : Option Intensity
  description : Option (List Char)
  status : WorkoutStatus
  createdAt : List Char
  rawText : Option (List Char)
deriving DecidableEq, Repr

/-- `WeeklyPlanEntry` from `src/lib/types.ts`. -/
structure WeeklyPlanEntry where
  id : List Char
  weekday : ℤ
  focus : List Char
  minutesTarget : ℕ
  suggestedIntensity : Intensity
deriving DecidableEq, Repr

/-- The slice of `CoachState` (`src/lib/types.ts`) read by
`getWeeklyWorkoutStats`: the active date and the workout / weekly-plan
collections (the remaining fields — profile, messages, drafts, meals,
targets — are never consulted by the aggregation queries treated here). -/
structure CoachState where
  activeDate : CivilDate
  workouts : List WorkoutLog
  weeklyPlan : List WeeklyPlanEntry
deriving DecidableEq, Repr

/-- Result shape of `getWeeklyWorkoutStats`. -/
structure WeeklyWorkoutStats where
  workoutsCompleted : ℕ
  totalMinutes : ℕ
  adherence : ℤ
deriving DecidableEq, Repr

/-- `getWeeklyWorkoutStats` from `src/lib/data/queries.ts` (lines 44-63):
filter the workouts to the Monday-start week of `activeDate`, keep the
completed ones, sum their minutes, and compute
`adherence = planMinutes === 0 ? 0 : min(100, round(total/plan*100))`. -/
def getWeeklyWorkoutStats (state : CoachState) : WeeklyWorkoutStats :=
  let today : ℤ := daysFromCivil state.activeDate
  let weekStart : ℤ := startOfWeekMonday today
  let workoutsThisWeek : List WorkoutLog := state.workouts.filter fun w =>
    decide (0 ≤ differenceInCalendarDays (daysFromCivil w.date) weekStart) &&
      decide (differenceInCalendarDays (daysFromCivil w.date) weekStart < 7)
  let completed : List WorkoutLog :=
    workoutsThisWeek.filter fun w => decide (w.status = .completed)
  let totalMinutes : ℕ := (completed.map fun w => w.minutes).sum
  let planMinutes : ℕ := (state.weeklyPlan.map fun e => e.minutesTarget).sum
  let adherence : ℤ :=
    if planMinutes = 0 then 0
    else min 100 (jsRound ((totalMinutes : ℚ) / (planMinutes : ℚ) * 100))
  { workoutsCompleted := completed.length
    totalMinutes := totalMinutes
    adherence := adherence }

/-- Spec-side notion: two dates lie in the same ISO week (starting
Monday) iff the Mondays of their weeks coincide. -/
def sameISOWeek (a b : ℤ) : Prop :=
  startOfWeekMonday a = startOfWeekMonday b

instance (a b : ℤ) : Decidable (sameISOWeek a b) := by
  unfold sameISOWeek
  infer_instance

/-- Spec-side selection: the completed workouts whose date lies in the
ISO week of the active date. -/
def specWeeklyCompleted (state : CoachState) : List WorkoutLog :=
  state.workouts.filter fun w =>
    decide (w.status = .completed) &&
      decide (sameISOWeek (daysFromCivil w.date) (daysFromCivil state.activeDate))

/-- Spec-side total of completed minutes in the active ISO week. -/
def specWeeklyMinutes (state : CoachState) : ℕ :=
  ((specWeeklyCompleted state).map fun w => w.minutes).sum

/-- Spec-side plan total. -/
def specPlanMinutes (state : CoachState) : ℕ :=
  (state.weeklyPlan.map fun e => e.minutesTarget).sum

/-- C8: `getWeeklyWorkoutStats` counts exactly the workouts with status
`completed` whose date lies in the ISO week (starting Monday) containing
`activeDate`, sums their minutes, and returns
`adherence = min(100, round(totalMinutes / planMinutes × 100))`
(for a plan whose minute total is non-zero). -/
theorem C8_weekly_stats (state : CoachState)
    (hplan : specPlanMinutes state ≠ 0) :
    getWeeklyWorkoutStats state =
      { workoutsCompleted := (specWeeklyCompleted state).length
        totalMinutes := specWeeklyMinutes state
        adherence := min 100 (jsRound
          ((specWeeklyMinutes state : ℚ) / (specPlanMinutes state : ℚ) * 100)) } := by
  have hpt : ∀ w : WorkoutLog,
      (decide (0 ≤ differenceInCalendarDays (daysFromCivil w.date)
          (startOfWeekMonday (daysFromCivil state.activeDate))) &&
        decide (differenceInCalendarDays (daysFromCivil w.date)
          (startOfWeekMonday (daysFromCivil state.activeDate)) < 7)) =
      decide (sameISOWeek (daysFromCivil w.date)
        (daysFromCivil state.activeDate)) := by
    intro w
    rw [← Bool.decide_and]
    exact decide_eq_decide.mpr
      (week_mem_iff (daysFromCivil state.activeDate) (daysFromCivil w.date))
  have hfil :
      ((state.workouts.filter fun w =>
        decide (0 ≤ differenceInCalendarDays (daysFromCivil w.date)
          (startOfWeekMonday (daysFromCivil state.activeDate))) &&
          decide (differenceInCalendarDays (daysFromCivil w.date)
            (startOfWeekMonday (daysFromCivil state.activeDate)) < 7)).filter
        fun w => decide (w.status = .completed)) =
      specWeeklyCompleted state := by
    rw [List.filter_filter]
    unfold specWeeklyCompleted
    congr 1
    funext w
    rw [hpt w]
  have hplan' : (state.weeklyPlan.map fun e => e.minutesTarget).sum ≠ 0 := hplan
  unfold getWeeklyWorkoutStats
  dsimp only
  rw [hfil, if_neg hplan']
  rfl

/-- The spec scenario state for the C8 witness: active date 2025-10-08
(a Wednesday), three completed workouts totaling 90 minutes inside that
ISO week, one planned workout inside the week and one completed workout
on the Sunday before (both must be ignored), and a weekly plan totaling
240 target minutes. -/
def c8State : CoachState :=
  { activeDate := ⟨2025, 10, 8⟩
    workouts :=
      [{ id := cl "w1", dayId := cl "d1", date := ⟨2025, 10, 6⟩
         type := cl "Run", minutes := 30, distance := none, intensity := none
         description := none, status := .completed, createdAt := cl "t1"
         rawText := none },
       { id := cl "w2", dayId := cl "d2", date := ⟨2025, 10, 8⟩
         type := cl "Ride", minutes := 40, distance := none, intensity := none
         description := none, status := .completed, createdAt := cl "t2"
         rawText := none },
       { id := cl "w3", dayId := cl "d3", date := ⟨2025, 10, 12⟩
         type := cl "Walk", minutes := 20, distance := none, intensity := none
         description := none, status := .completed, createdAt := cl "t3"
         rawText := none },
       { id := cl "w4", dayId := cl "d4", date := ⟨2025, 10, 9⟩
         type := cl "Yoga", minutes := 45, distance := none, intensity := none
         description := none, status := .planned, createdAt := cl "t4"
         rawText := none },
       { id := cl "w5", dayId := cl "d5", date := ⟨2025, 10, 5⟩
         type := cl "Run", minutes := 60, distance := none, intensity := none
         description := none, status := .completed, createdAt := cl "t5"
         rawText := none }]
    weeklyPlan :=
      [{ id := cl "p1", weekday := 1, focus := cl "run", minutesTarget := 60
         suggestedIntensity := .moderate },
       { id := cl "p2", weekday := 3, focus := cl "ride", minutesTarget := 90
         suggestedIntensity := .moderate },
       { id := cl "p3", weekday := 5, focus := cl "strength", minutesTarget := 90
         suggestedIntensity := .hard }] }

/-- Witness for C8: the scenario yields
`{workoutsCompleted: 3, totalMinutes: 90, adherence: 38}`
(`round(90/240 × 100) = round(37.5) = 38`). -/
theorem C8_weekly_stats_witness :
    getWeeklyWorkoutStats c8State =
      { workoutsCompleted := 3, totalMinutes := 90, adherence := 38 } := by
  rw [C8_weekly_stats c8State (by with_unfolding_all decide)]
  with_unfolding_all rfl

/-- C10: the adherence computation is guarded against a zero plan total:
when the weekly plan's `minutesTarget` values sum to 0 the adherence is
exactly 0, and in every state the adherence is a well-defined integer
between 0 and 100 (never a division by zero). -/
theorem C10_adherence_guarded (state : CoachState) :
    (specPlanMinutes state = 0 →
      (getWeeklyWorkoutStats state).adherence = 0) ∧
    0 ≤ (getWeeklyWorkoutStats state).adherence ∧
    (getWeeklyWorkoutStats state).adherence ≤ 100 := by
  have hadh : (getWeeklyWorkoutStats state).adherence =
      (if (state.weeklyPlan.map fun e => e.minutesTarget).sum = 0 then (0 : ℤ)
       else min 100 (jsRound
        ((((state.workouts.filter fun w =>
            decide (0 ≤ differenceInCalendarDays (daysFromCivil w.date)
              (startOfWeekMonday (daysFromCivil state.activeDate))) &&
              decide (differenceInCalendarDays (daysFromCivil w.date)
                (startOfWeekMonday (daysFromCivil state.activeDate)) < 7)).filter
            fun w => decide (w.status = .completed)).map
              fun w => w.minutes).sum /
          (((state.weeklyPlan.map fun e => e.minutesTarget).sum : ℕ) : ℚ) * 100))) := by
    rfl
  rw [hadh]
  by_cases hplan : (state.weeklyPlan.map fun e => e.minutesTarget).sum = 0
  · rw [if_pos hplan]
    exact ⟨fun _ => rfl, le_refl 0, by norm_num⟩
  · rw [if_neg hplan]
    have hge : (0 : ℤ) ≤ min 100 (jsRound
        ((((state.workouts.filter fun w =>
            decide (0 ≤ differenceInCalendarDays (daysFromCivil w.date)
              (startOfWeekMonday (daysFromCivil state.activeDate))) &&
              decide (differenceInCalendarDays (daysFromCivil w.date)
                (startOfWeekMonday (daysFromCivil state.activeDate)) < 7)).filter
            fun w => decide (w.status = .completed)).map
              fun w => w.minutes).sum /
          (((state.weeklyPlan.map fun e => e.minutesTarget).sum : ℕ) : ℚ) * 100)) := by
      apply le_min
      · norm_num
      · apply jsRound_nonneg
        positivity
    exact ⟨fun h => absurd h hplan, hge, min_le_left _ _⟩

/-- The empty-plan state for the C10 witness. -/
def c10State : CoachState :=
  { activeDate := ⟨2025, 10, 8⟩, workouts := [], weeklyPlan := [] }

/-- Witness for C10: with an empty weekly plan (plan minutes sum to 0)
the adherence is 0. -/
theorem C10_adherence_guarded_witness :
    (getWeeklyWorkoutStats c10State).adherence = 0 :=
  (C10_adherence_guarded c10State).1 rfl
